import Mathlib

/-!
Verification of the cppgc marking core (`src/heap/cppgc/marking-state.h`).

`MarkingState` is the per-task orchestrator of the marking phase of the
tracing garbage collector: it holds views into three worklists (trace
units, deferred not-fully-constructed addresses, deferred weak callbacks)
and a running marked-byte counter, and implements the mark-and-push
algorithm and the weak-reference policy.

The surrounding support types (`HeapObjectHeader`, `BasePage`, the global
GC-info table, the not-fully-constructed sentinel, the liveness broker)
are declared in headers outside the sources under study; they are modelled
here from the spec's stated contracts (section 4.1 of the design
document), which is noted on each such definition.

Machine details abstracted: addresses and callback pointers are `Nat`
(with `0` playing the role of the null pointer), worklist views are Lean
lists (a push is a cons; the spec requires no ordering among elements),
and `DCHECK` failures — fatal in diagnostic builds, compiled out in
release builds — are modelled by an explicit build flag `dbg` and an
`Option` result, where `none` is the diagnostic-build fatal stop.
-/

namespace Cppgc

/-- Modelled from the spec: the object header contract of section 4.1.
Per-object inline metadata: mark bit (mutated only via the atomic
compare-and-set), in-construction bit, free bit, compact byte size,
type-info index. `payload` is the address of the object's payload start
(the header is embedded directly before it), and `isLargeObject` records
whether the object lives in a single-object large region. -/
structure HeapObjectHeader where
  payload : Nat
  isMarked : Bool
  isInConstruction : Bool
  isFree : Bool
  size : Nat
  gcInfoIndex : Nat
  isLargeObject : Bool
  deriving DecidableEq

/-- Modelled from the spec: `try_mark_atomic() -> bool` — the CAS 0→1 on
the mark bit; returns whether this call performed the transition, together
with the updated header. -/
def HeapObjectHeader.TryMarkAtomic (h : HeapObjectHeader) :
    Bool × HeapObjectHeader :=
  if h.isMarked then (false, h) else (true, { h with isMarked := true })

/-- Modelled from the spec: a region of the page/region registry. `heap`
identifies the heap instance owning the region; `payloadSize` is, for a
single-object large region, the region's full payload size
(`LargePage::PayloadSize()`). -/
structure BasePage where
  heap : Nat
  payloadSize : Nat
  deriving DecidableEq

/-- The heap memory, viewed as the resolution map `HeapObjectHeader::FromPayload`:
each payload address yields the header embedded before it. -/
def Mem : Type := Nat → HeapObjectHeader

/-- Functional update of the memory at one payload address (the effect of
mutating a header obtained by reference from `FromPayload`). -/
def writeHeader (mem : Mem) (a : Nat) (h : HeapObjectHeader) : Mem :=
  fun x => if x = a then h else mem x

/-- Modelled from the spec: the reserved sentinel standing for "not yet
fully constructed" in a trace descriptor's base-object-payload slot
(`cppgc::GarbageCollectedMixin::kNotFullyConstructedObject`). Only
equality comparisons against it occur, so its numeric value is
irrelevant; it is distinct from any real base-object address. -/
def kNotFullyConstructedObject : Nat := 1

/-- A trace unit (`TraceDescriptor`): the base object payload address
paired with the field-tracing callback (callbacks are abstract
identifiers; `0` is the null callback). -/
structure TraceDescriptor where
  base_object_payload : Nat
  callback : Nat
  deriving DecidableEq

/-- Modelled from the spec: the stateless liveness-broker capability
handed to weak callbacks. -/
structure LivenessBroker where
  deriving DecidableEq

/-- Modelled from the spec: `LivenessBrokerFactory::Create` makes a fresh
broker at each invocation site. -/
def LivenessBrokerFactory.Create : LivenessBroker := {}

/-- One observable synchronous weak-callback invocation: the broker passed
in, the callback, and its parameter. -/
structure WeakInvocation where
  broker : LivenessBroker
  callback : Nat
  parameter : Nat
  deriving DecidableEq

/-- The per-task marking state: the owning heap (stored only in diagnostic
builds in the source, harmlessly kept unconditionally here since it is
read only under the `dbg` flag), the three worklist views (a push is a
cons onto the local segment), and the running marked-byte counter. -/
structure MarkingState where
  heap : Nat
  marking_worklist : List TraceDescriptor
  not_fully_constructed_worklist : List Nat
  weak_callback_worklist : List (Nat × Nat)
  marked_bytes : Nat
  deriving DecidableEq

namespace MarkingState

/-- The constructor: binds the views (initially empty local segments) and
default-initializes the marked-byte counter to zero. -/
def init (heap : Nat) : MarkingState :=
  { heap := heap
    marking_worklist := []
    not_fully_constructed_worklist := []
    weak_callback_worklist := []
    marked_bytes := 0 }

/-- `MarkingState::MarkNoPush`. In diagnostic builds (`dbg = true`) the
two `DCHECK`s are live: the header must belong to this state's heap
(resolved through its page) and must not be free; a violation is fatal
(`none`). Otherwise the atomic mark is attempted; the result pairs the
transition flag with the updated header. `pageOf` is the region
registry's `BasePage::FromPayload` resolution. -/
def MarkNoPush (dbg : Bool) (s : MarkingState) (pageOf : Nat → BasePage)
    (h : HeapObjectHeader) : Option (Bool × HeapObjectHeader) :=
  if dbg ∧ ¬((pageOf h.payload).heap = s.heap) then none
  else if dbg ∧ h.isFree then none
  else some h.TryMarkAtomic

/-- `MarkingState::MarkAndPush(HeapObjectHeader&, TraceDescriptor)`.
Checks `DCHECK_NOT_NULL(desc.callback)` in diagnostic builds; routes
in-construction objects to the not-fully-constructed worklist (by payload
address); otherwise marks, and pushes the trace unit exactly when this
call performed the transition. Returns the updated state and header. -/
def MarkAndPush (dbg : Bool) (s : MarkingState) (pageOf : Nat → BasePage)
    (h : HeapObjectHeader) (desc : TraceDescriptor) :
    Option (MarkingState × HeapObjectHeader) :=
  if dbg ∧ desc.callback = 0 then none
  else if h.isInConstruction then
    some ({ s with
            not_fully_constructed_worklist :=
              h.payload :: s.not_fully_constructed_worklist }, h)
  else
    match s.MarkNoPush dbg pageOf h with
    | none => none
    | some (marked, h2) =>
      if marked then
        some ({ s with marking_worklist := desc :: s.marking_worklist }, h2)
      else some (s, h2)

/-- `MarkingState::MarkAndPush(const void*, TraceDescriptor)`: the
address-based overload. Checks `DCHECK_NOT_NULL(object)`; if the
descriptor's base object payload is the not-fully-constructed sentinel,
pushes the bare `object` address onto the deferral worklist and returns;
otherwise resolves the header from the base object payload and delegates
to the header-based overload, whose header mutation is written back to
memory. -/
def MarkAndPushAddress (dbg : Bool) (s : MarkingState) (mem : Mem)
    (pageOf : Nat → BasePage) (object : Nat) (desc : TraceDescriptor) :
    Option (MarkingState × Mem) :=
  if dbg ∧ object = 0 then none
  else if desc.base_object_payload = kNotFullyConstructedObject then
    some ({ s with
            not_fully_constructed_worklist :=
              object :: s.not_fully_constructed_worklist }, mem)
  else
    match s.MarkAndPush dbg pageOf (mem desc.base_object_payload) desc with
    | none => none
    | some (s2, h2) => some (s2, writeHeader mem desc.base_object_payload h2)

/-- `MarkingState::MarkAndPush(HeapObjectHeader&)`: the header-only
convenience form, deriving the trace unit from the header's own type
index through the global GC-info table (`gcInfoTrace` is the table's
index-to-trace-callback lookup). -/
def MarkAndPushHeaderOnly (dbg : Bool) (s : MarkingState)
    (pageOf : Nat → BasePage) (gcInfoTrace : Nat → Nat)
    (h : HeapObjectHeader) : Option (MarkingState × HeapObjectHeader) :=
  s.MarkAndPush dbg pageOf h ⟨h.payload, gcInfoTrace h.gcInfoIndex⟩

/-- Modelled from the spec: `resolve_containing_header(interior_address)`
— the region registry resolves, for an arbitrary interior byte address,
the header of the object containing it
(`BasePage::ObjectHeaderFromInnerAddress`). The page is modelled as the
list of headers of the objects it holds, an object's storage being the
extent from its payload start over its size. -/
def objectHeaderFromInnerAddress (page : List HeapObjectHeader)
    (addr : Nat) : Option HeapObjectHeader :=
  page.find? (fun h =>
    decide (h.payload ≤ addr) && decide (addr < h.payload + h.size))

/-- `MarkingState::DynamicallyMarkAddress`: resolves the containing
header from the interior address via the region registry, asserts (in
diagnostic builds) that the object is not in construction, attempts the
atomic mark, and on a performed transition pushes a trace unit built from
the header's own payload and the GC-info table's trace callback for the
header's type index. -/
def DynamicallyMarkAddress (dbg : Bool) (s : MarkingState)
    (pageOf : Nat → BasePage) (page : List HeapObjectHeader)
    (gcInfoTrace : Nat → Nat) (addr : Nat) :
    Option (MarkingState × HeapObjectHeader) :=
  match objectHeaderFromInnerAddress page addr with
  | none => none
  | some h =>
    if dbg ∧ h.isInConstruction then none
    else
      match s.MarkNoPush dbg pageOf h with
      | none => none
      | some (marked, h2) =>
        if marked then
          some ({ s with
                  marking_worklist :=
                    ⟨h.payload, gcInfoTrace h.gcInfoIndex⟩ ::
                      s.marking_worklist }, h2)
        else some (s, h2)

/-- `MarkingState::RegisterWeakCallback`: unconditionally appends the
callback/parameter record to the weak-callback worklist. -/
def RegisterWeakCallback (s : MarkingState) (callback object : Nat) :
    MarkingState :=
  { s with
    weak_callback_worklist := (callback, object) :: s.weak_callback_worklist }

/-- `MarkingState::RegisterWeakReferenceIfNeeded`: filters out referents
that are real (non-sentinel) addresses whose header is already marked;
every other case registers the weak callback. -/
def RegisterWeakReferenceIfNeeded (s : MarkingState) (mem : Mem)
    (object : Nat) (desc : TraceDescriptor) (weak_callback parameter : Nat) :
    MarkingState :=
  if desc.base_object_payload ≠ kNotFullyConstructedObject ∧
      (mem desc.base_object_payload).isMarked then s
  else s.RegisterWeakCallback weak_callback parameter

/-- `MarkingState::InvokeWeakRootsCallbackIfNeeded`: skips the
not-fully-constructed sentinel entirely; otherwise invokes the callback
synchronously with a freshly created liveness broker. The state is
untouched; the returned list records the synchronous invocations. -/
def InvokeWeakRootsCallbackIfNeeded (s : MarkingState) (object : Nat)
    (desc : TraceDescriptor) (weak_callback parameter : Nat) :
    MarkingState × List WeakInvocation :=
  if desc.base_object_payload = kNotFullyConstructedObject then (s, [])
  else (s, [⟨LivenessBrokerFactory.Create, weak_callback, parameter⟩])

/-- `MarkingState::AccountMarkedBytes`: adds the owning large region's
full payload size for large objects, the header's compact size field
otherwise. -/
def AccountMarkedBytes (s : MarkingState) (pageOf : Nat → BasePage)
    (h : HeapObjectHeader) : MarkingState :=
  { s with
    marked_bytes :=
      s.marked_bytes +
        (if h.isLargeObject then (pageOf h.payload).payloadSize else h.size) }

end MarkingState

/-! ## Claim theorems -/

open MarkingState

/-- C1: for a header with the in-construction bit clear and the free bit
clear, `MarkAndPush(header, trace_unit)` pushes the trace unit onto the
trace-unit worklist if and only if that call itself performed the atomic
0-to-1 transition of the mark bit; an already-marked header is left
entirely unchanged (no bit change, no worklist change), and in the valid
unmarked case the push does happen. -/
theorem markAndPush_pushes_iff_transition (dbg : Bool) (s : MarkingState)
    (pageOf : Nat → BasePage) (h : HeapObjectHeader) (desc : TraceDescriptor)
    (hc : h.isInConstruction = false) (hf : h.isFree = false) :
    (∀ s2 h2, s.MarkAndPush dbg pageOf h desc = some (s2, h2) →
      ((s2.marking_worklist = desc :: s.marking_worklist) ↔
        (h.isMarked = false ∧ h2.isMarked = true)) ∧
      (h.isMarked = true → s2 = s ∧ h2 = h) ∧
      s2.not_fully_constructed_worklist = s.not_fully_constructed_worklist ∧
      s2.weak_callback_worklist = s.weak_callback_worklist) ∧
    ((dbg = false ∨ (desc.callback ≠ 0 ∧ (pageOf h.payload).heap = s.heap)) →
      h.isMarked = false →
      s.MarkAndPush dbg pageOf h desc =
        some ({ s with marking_worklist := desc :: s.marking_worklist },
              { h with isMarked := true })) := by
  constructor
  · intro s2 h2 hr
    unfold MarkAndPush MarkNoPush HeapObjectHeader.TryMarkAtomic at hr
    by_cases hcb : dbg = true ∧ desc.callback = 0
    · rw [if_pos hcb] at hr
      exact absurd hr (by simp)
    · rw [if_neg hcb] at hr
      by_cases hh : dbg = true ∧ ¬((pageOf h.payload).heap = s.heap)
      · simp [hc, hh] at hr
      · by_cases hm : h.isMarked = true
        · simp [hc, hf, hh, hm] at hr
          obtain ⟨h1, h2'⟩ := hr
          subst h1 h2'
          refine ⟨?_, fun _ => ⟨rfl, rfl⟩, rfl, rfl⟩
          simp [hm]
        · simp only [Bool.not_eq_true] at hm
          simp [hc, hf, hh, hm] at hr
          obtain ⟨h1, h2'⟩ := hr
          subst h1 h2'
          simp [hm]
  · intro hok hm
    unfold MarkAndPush MarkNoPush HeapObjectHeader.TryMarkAtomic
    rcases hok with hrel | ⟨hcb, hheap⟩
    · subst hrel; simp [hc, hf, hm]
    · simp [hc, hf, hm, hcb, hheap]

/-- Witness for C1: a concrete unmarked, fully constructed, non-free
header in a release build is marked and its trace unit is pushed. -/
theorem markAndPush_pushes_iff_transition_witness :
    (MarkingState.init 0).MarkAndPush false (fun _ => ⟨0, 16⟩)
        ⟨4, false, false, false, 16, 2, false⟩ ⟨4, 9⟩ =
      some ({ MarkingState.init 0 with marking_worklist := [⟨4, 9⟩] },
            ⟨4, true, false, false, 16, 2, false⟩) :=
  (markAndPush_pushes_iff_transition false (MarkingState.init 0)
      (fun _ => ⟨0, 16⟩) ⟨4, false, false, false, 16, 2, false⟩ ⟨4, 9⟩
      rfl rfl).2 (Or.inl rfl) rfl

/-- C2: a header with the in-construction bit set is routed to the
deferred-construction worklist by its payload address; nothing is pushed
onto the trace-unit worklist and the header (in particular its mark bit)
is left untouched — `TryMarkAtomic` is never reached on this path. -/
theorem markAndPush_inConstruction_defers (dbg : Bool) (s : MarkingState)
    (pageOf : Nat → BasePage) (h : HeapObjectHeader) (desc : TraceDescriptor)
    (hc : h.isInConstruction = true) :
    (∀ s2 h2, s.MarkAndPush dbg pageOf h desc = some (s2, h2) →
      s2 = { s with
             not_fully_constructed_worklist :=
               h.payload :: s.not_fully_constructed_worklist } ∧
      h2 = h) ∧
    (¬(dbg = true ∧ desc.callback = 0) →
      s.MarkAndPush dbg pageOf h desc =
        some ({ s with
                not_fully_constructed_worklist :=
                  h.payload :: s.not_fully_constructed_worklist }, h)) := by
  constructor
  · intro s2 h2 hr
    unfold MarkAndPush at hr
    by_cases hcb : dbg = true ∧ desc.callback = 0
    · rw [if_pos hcb] at hr
      exact absurd hr (by simp)
    · rw [if_neg hcb] at hr
      simp [hc] at hr
      exact ⟨hr.1.symm, hr.2.symm⟩
  · intro hcb
    unfold MarkAndPush
    rw [if_neg hcb]
    simp [hc]

/-- Witness for C2: a concrete in-construction header is pushed to the
deferred-construction worklist and returned unchanged. -/
theorem markAndPush_inConstruction_defers_witness :
    (MarkingState.init 0).MarkAndPush true (fun _ => ⟨0, 16⟩)
        ⟨8, false, true, false, 16, 2, false⟩ ⟨8, 9⟩ =
      some ({ MarkingState.init 0 with
              not_fully_constructed_worklist := [8] },
            ⟨8, false, true, false, 16, 2, false⟩) :=
  (markAndPush_inConstruction_defers true (MarkingState.init 0)
      (fun _ => ⟨0, 16⟩) ⟨8, false, true, false, 16, 2, false⟩ ⟨8, 9⟩
      rfl).2 (by decide)

/-- C3 counterexample: the claim says the mark bit of a free header is
never mutated "in every build configuration", but the free-bit check is a
`DCHECK`, compiled out of release builds. In a release build
(`dbg = false`) `MarkNoPush` on a free, unmarked header proceeds to
`TryMarkAtomic` and sets the mark bit: here the input header has
`isFree = true` and `isMarked = false`, and the call returns the header
with `isMarked = true`. -/
theorem markNoPush_free_release_mutates :
    ((⟨0, false, false, true, 8, 0, false⟩ : HeapObjectHeader).isFree
        = true) ∧
    ((⟨0, false, false, true, 8, 0, false⟩ : HeapObjectHeader).isMarked
        = false) ∧
    (MarkingState.init 0).MarkNoPush false (fun _ => ⟨0, 8⟩)
        ⟨0, false, false, true, 8, 0, false⟩ =
      some (true, ⟨0, true, false, true, 8, 0, false⟩) :=
  ⟨rfl, rfl, rfl⟩

/-- C3 amended: in diagnostic builds (`dbg = true`), calling `MarkNoPush`
on a header with the free bit set is a fatal precondition violation and
the mark bit is never mutated (the call stops before `TryMarkAtomic`);
in release builds the checks are compiled out and the call reduces to
`TryMarkAtomic`, which may set the mark bit of a free header. -/
theorem markNoPush_free_diagnostic_fatal (s : MarkingState)
    (pageOf : Nat → BasePage) (h : HeapObjectHeader) :
    (h.isFree = true → s.MarkNoPush true pageOf h = none) ∧
    s.MarkNoPush false pageOf h = some h.TryMarkAtomic := by
  constructor
  · intro hf
    unfold MarkNoPush
    by_cases hh : (pageOf h.payload).heap = s.heap <;> simp [hf, hh]
  · unfold MarkNoPush
    simp

/-- Witness for C3's amended statement: on a concrete free header the
diagnostic build stops fatally, and the release build reduces to the raw
atomic mark attempt. -/
theorem markNoPush_free_diagnostic_fatal_witness :
    (MarkingState.init 0).MarkNoPush true (fun _ => ⟨0, 8⟩)
        ⟨0, false, false, true, 8, 0, false⟩ = none ∧
    (MarkingState.init 0).MarkNoPush false (fun _ => ⟨0, 8⟩)
        ⟨0, false, false, true, 8, 0, false⟩ =
      some (⟨0, false, false, true, 8, 0, false⟩ :
        HeapObjectHeader).TryMarkAtomic :=
  ⟨(markNoPush_free_diagnostic_fatal (MarkingState.init 0) (fun _ => ⟨0, 8⟩)
      ⟨0, false, false, true, 8, 0, false⟩).1 rfl,
   (markNoPush_free_diagnostic_fatal (MarkingState.init 0) (fun _ => ⟨0, 8⟩)
      ⟨0, false, false, true, 8, 0, false⟩).2⟩

/-- C4: `RegisterWeakReferenceIfNeeded` leaves the trace-unit and
deferred-construction worklists (and the byte counter) untouched in every
case; it leaves the state entirely unchanged exactly when the referent is
a real (non-sentinel) address whose header is already marked, and in
every other case (unmarked referent, or the sentinel) it appends exactly
one callback/parameter record to the weak-callback worklist. -/
theorem registerWeakReference_filters_marked (s : MarkingState) (mem : Mem)
    (object : Nat) (desc : TraceDescriptor) (cb param : Nat) :
    (s.RegisterWeakReferenceIfNeeded mem object desc cb param).marking_worklist
        = s.marking_worklist ∧
    (s.RegisterWeakReferenceIfNeeded mem object desc cb
          param).not_fully_constructed_worklist
        = s.not_fully_constructed_worklist ∧
    (s.RegisterWeakReferenceIfNeeded mem object desc cb param).marked_bytes
        = s.marked_bytes ∧
    (s.RegisterWeakReferenceIfNeeded mem object desc cb param = s ↔
      (desc.base_object_payload ≠ kNotFullyConstructedObject ∧
        (mem desc.base_object_payload).isMarked = true)) ∧
    ((desc.base_object_payload = kNotFullyConstructedObject ∨
        (mem desc.base_object_payload).isMarked = false) →
      (s.RegisterWeakReferenceIfNeeded mem object desc cb
            param).weak_callback_worklist
        = (cb, param) :: s.weak_callback_worklist) := by
  unfold MarkingState.RegisterWeakReferenceIfNeeded
    MarkingState.RegisterWeakCallback
  by_cases hcase : desc.base_object_payload ≠ kNotFullyConstructedObject ∧
      (mem desc.base_object_payload).isMarked = true
  · rw [if_pos hcase]
    refine ⟨rfl, rfl, rfl, iff_of_true rfl hcase, ?_⟩
    rintro (hs | hm)
    · exact absurd hs hcase.1
    · rw [hcase.2] at hm; cases hm
  · rw [if_neg hcase]
    refine ⟨rfl, rfl, rfl, ?_, fun _ => rfl⟩
    refine iff_of_false ?_ hcase
    intro habs
    have hlen := congrArg (fun t => t.weak_callback_worklist.length) habs
    simp at hlen

/-- Witness for C4: with an unmarked referent the call appends exactly
one record to the weak-callback worklist. -/
theorem registerWeakReference_filters_marked_witness :
    ((MarkingState.init 0).RegisterWeakReferenceIfNeeded
        (fun _ => ⟨4, false, false, false, 16, 2, false⟩) 4 ⟨4, 9⟩ 11
        13).weak_callback_worklist = [(11, 13)] :=
  (registerWeakReference_filters_marked (MarkingState.init 0)
      (fun _ => ⟨4, false, false, false, 16, 2, false⟩) 4 ⟨4, 9⟩ 11
      13).2.2.2.2 (Or.inr rfl)

/-- C5: `InvokeWeakRootsCallbackIfNeeded` never touches the state (no
worklist push, no registration): for the not-fully-constructed sentinel
it does nothing at all, and otherwise it performs exactly one synchronous
invocation of the supplied callback with a freshly created liveness
broker. -/
theorem invokeWeakRoots_synchronous (s : MarkingState) (object : Nat)
    (desc : TraceDescriptor) (cb param : Nat) :
    (s.InvokeWeakRootsCallbackIfNeeded object desc cb param).1 = s ∧
    (desc.base_object_payload = kNotFullyConstructedObject →
      (s.InvokeWeakRootsCallbackIfNeeded object desc cb param).2 = []) ∧
    (desc.base_object_payload ≠ kNotFullyConstructedObject →
      (s.InvokeWeakRootsCallbackIfNeeded object desc cb param).2 =
        [⟨LivenessBrokerFactory.Create, cb, param⟩]) := by
  unfold MarkingState.InvokeWeakRootsCallbackIfNeeded
  by_cases hcase : desc.base_object_payload = kNotFullyConstructedObject
  · rw [if_pos hcase]
    exact ⟨rfl, fun _ => rfl, fun habs => absurd hcase habs⟩
  · rw [if_neg hcase]
    exact ⟨rfl, fun habs => absurd habs hcase, fun _ => rfl⟩

/-- Witness for C5: a concrete non-sentinel referent is invoked once,
synchronously, with a fresh broker, and the state is returned unchanged. -/
theorem invokeWeakRoots_synchronous_witness :
    ((MarkingState.init 0).InvokeWeakRootsCallbackIfNeeded 4 ⟨4, 9⟩ 11
        13).1 = MarkingState.init 0 ∧
    ((MarkingState.init 0).InvokeWeakRootsCallbackIfNeeded 4 ⟨4, 9⟩ 11
        13).2 = [⟨LivenessBrokerFactory.Create, 11, 13⟩] :=
  ⟨(invokeWeakRoots_synchronous (MarkingState.init 0) 4 ⟨4, 9⟩ 11 13).1,
   (invokeWeakRoots_synchronous (MarkingState.init 0) 4 ⟨4, 9⟩ 11
      13).2.2 (by decide)⟩

/-- C6: `AccountMarkedBytes` adds to the counter exactly the owning large
region's full payload size when the object is a large object, and exactly
the header's compact size field otherwise; no other component of the
state is affected. -/
theorem accountMarkedBytes_adds_size (s : MarkingState)
    (pageOf : Nat → BasePage) (h : HeapObjectHeader) :
    (h.isLargeObject = true →
      (s.AccountMarkedBytes pageOf h).marked_bytes =
        s.marked_bytes + (pageOf h.payload).payloadSize) ∧
    (h.isLargeObject = false →
      (s.AccountMarkedBytes pageOf h).marked_bytes =
        s.marked_bytes + h.size) ∧
    (s.AccountMarkedBytes pageOf h).heap = s.heap ∧
    (s.AccountMarkedBytes pageOf h).marking_worklist = s.marking_worklist ∧
    (s.AccountMarkedBytes pageOf h).not_fully_constructed_worklist =
      s.not_fully_constructed_worklist ∧
    (s.AccountMarkedBytes pageOf h).weak_callback_worklist =
      s.weak_callback_worklist := by
  unfold MarkingState.AccountMarkedBytes
  refine ⟨fun hl => ?_, fun hl => ?_, rfl, rfl, rfl, rfl⟩ <;> simp [hl]

/-- Witness for C6: a concrete large object contributes its region's full
payload size, not its compact header size field. -/
theorem accountMarkedBytes_adds_size_witness :
    ((MarkingState.init 0).AccountMarkedBytes (fun _ => ⟨0, 4096⟩)
        ⟨4, true, false, false, 0, 2, true⟩).marked_bytes = 4096 :=
  (accountMarkedBytes_adds_size (MarkingState.init 0) (fun _ => ⟨0, 4096⟩)
      ⟨4, true, false, false, 0, 2, true⟩).1 rfl

/-- C7: the address-based `MarkAndPush`, when the trace descriptor's base
object payload is the not-fully-constructed sentinel, pushes the bare
`object` address onto the deferred-construction worklist and returns with
the memory (hence every mark bit) and the trace-unit worklist untouched;
for every non-sentinel descriptor it resolves the header from the
descriptor's base object payload and delegates to the header-based
overload, writing that overload's header update back. (In diagnostic
builds a null `object` is a fatal `DCHECK`, excluded by hypothesis.) -/
theorem markAndPushAddress_sentinel_defers (dbg : Bool) (s : MarkingState)
    (mem : Mem) (pageOf : Nat → BasePage) (object : Nat)
    (desc : TraceDescriptor) (hobj : ¬(dbg = true ∧ object = 0)) :
    (desc.base_object_payload = kNotFullyConstructedObject →
      s.MarkAndPushAddress dbg mem pageOf object desc =
        some ({ s with
                not_fully_constructed_worklist :=
                  object :: s.not_fully_constructed_worklist }, mem)) ∧
    (desc.base_object_payload ≠ kNotFullyConstructedObject →
      s.MarkAndPushAddress dbg mem pageOf object desc =
        (s.MarkAndPush dbg pageOf (mem desc.base_object_payload) desc).map
          (fun p => (p.1, writeHeader mem desc.base_object_payload p.2))) := by
  unfold MarkingState.MarkAndPushAddress
  rw [if_neg hobj]
  constructor
  · intro hsent
    rw [if_pos hsent]
  · intro hsent
    rw [if_neg hsent]
    cases hres : s.MarkAndPush dbg pageOf (mem desc.base_object_payload) desc
      with
    | none => rfl
    | some p => cases p; rfl

/-- Witness for C7: with a concrete sentinel descriptor the bare object
address is deferred and memory is untouched. -/
theorem markAndPushAddress_sentinel_defers_witness :
    (MarkingState.init 0).MarkAndPushAddress false
        (fun _ => ⟨4, false, false, false, 16, 2, false⟩)
        (fun _ => ⟨0, 16⟩) 42 ⟨kNotFullyConstructedObject, 9⟩ =
      some ({ MarkingState.init 0 with
              not_fully_constructed_worklist := [42] },
            fun _ => ⟨4, false, false, false, 16, 2, false⟩) :=
  (markAndPushAddress_sentinel_defers false (MarkingState.init 0)
      (fun _ => ⟨4, false, false, false, 16, 2, false⟩) (fun _ => ⟨0, 16⟩)
      42 ⟨kNotFullyConstructedObject, 9⟩ (by decide)).1 rfl

/-- A predicate search in a list returns the designated element when that
element occurs, satisfies the predicate, and is the only element of the
list doing so. -/
theorem find?_eq_some_of_unique {α : Type} (p : α → Bool) (a : α) :
    ∀ l : List α, a ∈ l → p a = true →
      (∀ x ∈ l, p x = true → x = a) → l.find? p = some a := by
  intro l
  induction l with
  | nil => intro hmem; cases hmem
  | cons x xs ih =>
    intro hmem hpa huniq
    by_cases hx : p x = true
    · have hxa : x = a := huniq x (List.mem_cons_self x xs) hx
      rw [List.find?_cons_of_pos _ hx, hxa]
    · have hxna : a ≠ x := by
        intro habs; rw [habs] at hpa; exact hx hpa
      have hmem' : a ∈ xs := by
        rcases List.mem_cons.mp hmem with h | h
        · exact absurd h hxna
        · exact h
      rw [List.find?_cons_of_neg _ (by simpa using hx)]
      exact ih hmem' hpa fun y hy hpy =>
        huniq y (List.mem_cons_of_mem x hy) hpy

/-- The byte-extent predicate used by the interior-address resolution. -/
theorem containsAddr_unique (page : List HeapObjectHeader)
    (O : HeapObjectHeader) (addr : Nat) (hmem : O ∈ page)
    (hlo : O.payload ≤ addr) (hhi : addr < O.payload + O.size)
    (hdisj : ∀ h1 ∈ page, ∀ h2 ∈ page, h1 ≠ h2 →
      h1.payload + h1.size ≤ h2.payload ∨
        h2.payload + h2.size ≤ h1.payload) :
    objectHeaderFromInnerAddress page addr = some O := by
  unfold objectHeaderFromInnerAddress
  refine find?_eq_some_of_unique _ O page hmem ?_ ?_
  · simp [hlo, hhi]
  · intro x hx hpx
    simp only [Bool.and_eq_true, decide_eq_true_eq] at hpx
    by_contra hne
    rcases hdisj x hx O hmem hne with hd | hd <;> omega

/-- C8: for an interior address inside a known object's storage on a page
whose objects occupy pairwise-disjoint extents, `DynamicallyMarkAddress`
resolves that same object's header (not a neighbor's); in diagnostic
builds an in-construction object is a fatal assertion; every completed
call pushes a trace unit — built from the header's own payload and the
GC-info table's callback for the header's own type index — exactly when
this call performed the 0-to-1 mark transition, and an already-marked
object changes nothing. -/
theorem dynamicallyMarkAddress_resolves_container (dbg : Bool)
    (s : MarkingState) (pageOf : Nat → BasePage)
    (page : List HeapObjectHeader) (gcInfoTrace : Nat → Nat) (addr : Nat)
    (O : HeapObjectHeader) (hmem : O ∈ page) (hlo : O.payload ≤ addr)
    (hhi : addr < O.payload + O.size)
    (hdisj : ∀ h1 ∈ page, ∀ h2 ∈ page, h1 ≠ h2 →
      h1.payload + h1.size ≤ h2.payload ∨
        h2.payload + h2.size ≤ h1.payload) :
    objectHeaderFromInnerAddress page addr = some O ∧
    (dbg = true → O.isInConstruction = true →
      s.DynamicallyMarkAddress dbg pageOf page gcInfoTrace addr = none) ∧
    (∀ s2 h2,
      s.DynamicallyMarkAddress dbg pageOf page gcInfoTrace addr =
          some (s2, h2) →
      ((s2.marking_worklist =
          ⟨O.payload, gcInfoTrace O.gcInfoIndex⟩ :: s.marking_worklist) ↔
        (O.isMarked = false ∧ h2.isMarked = true)) ∧
      (O.isMarked = true → s2 = s ∧ h2 = O)) ∧
    ((dbg = false ∨ (O.isInConstruction = false ∧ O.isFree = false ∧
        (pageOf O.payload).heap = s.heap)) →
      O.isMarked = false →
      s.DynamicallyMarkAddress dbg pageOf page gcInfoTrace addr =
        some ({ s with
                marking_worklist :=
                  ⟨O.payload, gcInfoTrace O.gcInfoIndex⟩ ::
                    s.marking_worklist },
              { O with isMarked := true })) := by
  have hres := containsAddr_unique page O addr hmem hlo hhi hdisj
  have heq : s.DynamicallyMarkAddress dbg pageOf page gcInfoTrace addr =
      (if dbg = true ∧ O.isInConstruction = true then none
       else
         match s.MarkNoPush dbg pageOf O with
         | none => none
         | some (marked, h2) =>
           if marked then
             some ({ s with
                     marking_worklist :=
                       ⟨O.payload, gcInfoTrace O.gcInfoIndex⟩ ::
                         s.marking_worklist }, h2)
           else some (s, h2)) := by
    unfold MarkingState.DynamicallyMarkAddress
    rw [hres]
  refine ⟨hres, ?_, ?_, ?_⟩
  · intro hdbg hic
    rw [heq]
    simp [hdbg, hic]
  · intro s2 h2 hr
    rw [heq] at hr
    unfold MarkingState.MarkNoPush HeapObjectHeader.TryMarkAtomic at hr
    by_cases hic : dbg = true ∧ O.isInConstruction = true
    · rw [if_pos hic] at hr
      exact absurd hr (by simp)
    · rw [if_neg hic] at hr
      by_cases hh : dbg = true ∧ ¬((pageOf O.payload).heap = s.heap)
      · simp [hh] at hr
      · by_cases hfree : dbg = true ∧ O.isFree = true
        · simp [hh, hfree] at hr
        · rw [if_neg hh, if_neg hfree] at hr
          by_cases hm : O.isMarked = true
          · simp [hm] at hr
            obtain ⟨h1, h2'⟩ := hr
            subst h1 h2'
            refine ⟨?_, fun _ => ⟨rfl, rfl⟩⟩
            simp [hm]
          · simp only [Bool.not_eq_true] at hm
            simp [hm] at hr
            obtain ⟨h1, h2'⟩ := hr
            subst h1 h2'
            simp [hm]
  · intro hok hm
    rw [heq]
    unfold MarkingState.MarkNoPush HeapObjectHeader.TryMarkAtomic
    rcases hok with hrel | ⟨hic, hfree, hheap⟩
    · subst hrel; simp [hm]
    · simp [hic, hfree, hheap, hm]

/-- Witness for C8: a two-object page; an address strictly inside the
second object resolves to the second object's header, which is marked
and whose own type-index callback is pushed. -/
theorem dynamicallyMarkAddress_resolves_container_witness :
    (MarkingState.init 0).DynamicallyMarkAddress false (fun _ => ⟨0, 64⟩)
        [⟨8, false, false, false, 16, 2, false⟩,
         ⟨32, false, false, false, 16, 3, false⟩]
        (fun i => 100 + i) 35 =
      some ({ MarkingState.init 0 with marking_worklist := [⟨32, 103⟩] },
            ⟨32, true, false, false, 16, 3, false⟩) :=
  (dynamicallyMarkAddress_resolves_container false (MarkingState.init 0)
      (fun _ => ⟨0, 64⟩)
      [⟨8, false, false, false, 16, 2, false⟩,
       ⟨32, false, false, false, 16, 3, false⟩]
      (fun i => 100 + i) 35 ⟨32, false, false, false, 16, 3, false⟩
      (by decide) (by decide) (by decide) (by decide)).2.2.2
    (Or.inl rfl) rfl

/-! ## The operation alphabet of one `MarkingState` instance

For the whole-lifetime claims about the marked-byte counter, the public
operations of a `MarkingState` are collected into one alphabet and a step
function. The heap side (memory, region registry, page contents, GC-info
table, build flag) is bundled as an environment: header mutation is shared
heap state outside the per-task instance and does not feed back into the
private byte counter, which is the subject of these claims. A `none` step
is a diagnostic-build fatal stop, which ends the run. -/

structure MarkEnv where
  dbg : Bool
  mem : Mem
  pageOf : Nat → BasePage
  page : List HeapObjectHeader
  gcInfoTrace : Nat → Nat

/-- One call to a public operation of `MarkingState`, with its
arguments. -/
inductive MOp where
  | markAndPushAddress (object : Nat) (desc : TraceDescriptor)
  | markAndPush (h : HeapObjectHeader) (desc : TraceDescriptor)
  | markAndPushHeaderOnly (h : HeapObjectHeader)
  | markNoPush (h : HeapObjectHeader)
  | dynamicallyMarkAddress (addr : Nat)
  | registerWeakReferenceIfNeeded (object : Nat) (desc : TraceDescriptor)
      (cb param : Nat)
  | registerWeakCallback (cb param : Nat)
  | invokeWeakRootsCallbackIfNeeded (object : Nat) (desc : TraceDescriptor)
      (cb param : Nat)
  | accountMarkedBytes (h : HeapObjectHeader)
  deriving DecidableEq

/-- The effect of one public operation on the per-task marking state. -/
def step (e : MarkEnv) (s : MarkingState) : MOp → Option MarkingState
  | .markAndPushAddress object desc =>
    (s.MarkAndPushAddress e.dbg e.mem e.pageOf object desc).map Prod.fst
  | .markAndPush h desc =>
    (s.MarkAndPush e.dbg e.pageOf h desc).map Prod.fst
  | .markAndPushHeaderOnly h =>
    (s.MarkAndPushHeaderOnly e.dbg e.pageOf e.gcInfoTrace h).map Prod.fst
  | .markNoPush h => (s.MarkNoPush e.dbg e.pageOf h).map fun _ => s
  | .dynamicallyMarkAddress addr =>
    (s.DynamicallyMarkAddress e.dbg e.pageOf e.page e.gcInfoTrace
        addr).map Prod.fst
  | .registerWeakReferenceIfNeeded object desc cb param =>
    some (s.RegisterWeakReferenceIfNeeded e.mem object desc cb param)
  | .registerWeakCallback cb param =>
    some (s.RegisterWeakCallback cb param)
  | .invokeWeakRootsCallbackIfNeeded object desc cb param =>
    some (s.InvokeWeakRootsCallbackIfNeeded object desc cb param).1
  | .accountMarkedBytes h => some (s.AccountMarkedBytes e.pageOf h)

/-- A sequence of public operations performed on one instance. -/
def run (e : MarkEnv) : List MOp → MarkingState → Option MarkingState
  | [], s => some s
  | op :: ops, s =>
    match step e s op with
    | none => none
    | some s2 => run e ops s2

/-- The header-based `MarkAndPush` never touches the byte counter. -/
theorem MarkAndPush_marked_bytes (dbg : Bool) (s : MarkingState)
    (pageOf : Nat → BasePage) (h : HeapObjectHeader)
    (desc : TraceDescriptor) (s2 : MarkingState) (h2 : HeapObjectHeader)
    (hr : s.MarkAndPush dbg pageOf h desc = some (s2, h2)) :
    s2.marked_bytes = s.marked_bytes := by
  unfold MarkingState.MarkAndPush MarkingState.MarkNoPush at hr
  by_cases hcb : dbg = true ∧ desc.callback = 0
  · rw [if_pos hcb] at hr; exact absurd hr (by simp)
  · rw [if_neg hcb] at hr
    by_cases hic : h.isInConstruction = true
    · simp [hic] at hr
      exact hr.1 ▸ rfl
    · simp only [Bool.not_eq_true] at hic
      by_cases hh : dbg = true ∧ ¬((pageOf h.payload).heap = s.heap)
      · simp [hic, hh] at hr
      · by_cases hfree : dbg = true ∧ h.isFree = true
        · simp [hic, hh, hfree] at hr
        · rw [if_neg hh, if_neg hfree] at hr
          simp [hic] at hr
          by_cases hm : h.isMarked = true
          · simp [HeapObjectHeader.TryMarkAtomic, hm] at hr
            exact hr.1 ▸ rfl
          · simp only [Bool.not_eq_true] at hm
            simp [HeapObjectHeader.TryMarkAtomic, hm] at hr
            exact hr.1 ▸ rfl

/-- The address-based `MarkAndPush` never touches the byte counter. -/
theorem MarkAndPushAddress_marked_bytes (dbg : Bool) (s : MarkingState)
    (mem : Mem) (pageOf : Nat → BasePage) (object : Nat)
    (desc : TraceDescriptor) (s2 : MarkingState) (m2 : Mem)
    (hr : s.MarkAndPushAddress dbg mem pageOf object desc =
      some (s2, m2)) : s2.marked_bytes = s.marked_bytes := by
  unfold MarkingState.MarkAndPushAddress at hr
  by_cases hobj : dbg = true ∧ object = 0
  · rw [if_pos hobj] at hr; exact absurd hr (by simp)
  · rw [if_neg hobj] at hr
    by_cases hsent : desc.base_object_payload = kNotFullyConstructedObject
    · rw [if_pos hsent] at hr
      simp at hr
      exact hr.1 ▸ rfl
    · rw [if_neg hsent] at hr
      cases hcall : s.MarkAndPush dbg pageOf (mem desc.base_object_payload)
          desc with
      | none => rw [hcall] at hr; exact absurd hr (by simp)
      | some p =>
        rw [hcall] at hr
        simp at hr
        exact hr.1 ▸ MarkAndPush_marked_bytes dbg s pageOf
          (mem desc.base_object_payload) desc p.1 p.2 (by
            rw [hcall])

/-- `DynamicallyMarkAddress` never touches the byte counter. -/
theorem DynamicallyMarkAddress_marked_bytes (dbg : Bool)
    (s : MarkingState) (pageOf : Nat → BasePage)
    (page : List HeapObjectHeader) (gcInfoTrace : Nat → Nat) (addr : Nat)
    (s2 : MarkingState) (h2 : HeapObjectHeader)
    (hr : s.DynamicallyMarkAddress dbg pageOf page gcInfoTrace addr =
      some (s2, h2)) : s2.marked_bytes = s.marked_bytes := by
  unfold MarkingState.DynamicallyMarkAddress MarkingState.MarkNoPush at hr
  cases hres : objectHeaderFromInnerAddress page addr with
  | none => rw [hres] at hr; exact absurd hr (by simp)
  | some h =>
    rw [hres] at hr
    simp only at hr
    by_cases hic : dbg = true ∧ h.isInConstruction = true
    · rw [if_pos hic] at hr; exact absurd hr (by simp)
    · rw [if_neg hic] at hr
      by_cases hh : dbg = true ∧ ¬((pageOf h.payload).heap = s.heap)
      · simp [hh] at hr
      · by_cases hfree : dbg = true ∧ h.isFree = true
        · simp [hh, hfree] at hr
        · rw [if_neg hh, if_neg hfree] at hr
          by_cases hm : h.isMarked = true
          · simp [HeapObjectHeader.TryMarkAtomic, hm] at hr
            exact hr.1 ▸ rfl
          · simp only [Bool.not_eq_true] at hm
            simp [HeapObjectHeader.TryMarkAtomic, hm] at hr
            exact hr.1 ▸ rfl

/-- `RegisterWeakReferenceIfNeeded` never touches the byte counter. -/
theorem RegisterWeakReferenceIfNeeded_marked_bytes (s : MarkingState)
    (mem : Mem) (object : Nat) (desc : TraceDescriptor) (cb param : Nat) :
    (s.RegisterWeakReferenceIfNeeded mem object desc cb
        param).marked_bytes = s.marked_bytes := by
  unfold MarkingState.RegisterWeakReferenceIfNeeded
    MarkingState.RegisterWeakCallback
  by_cases hcase : desc.base_object_payload ≠ kNotFullyConstructedObject ∧
      (mem desc.base_object_payload).isMarked = true
  · rw [if_pos hcase]
  · rw [if_neg hcase]

/-- Every completed step either leaves the byte counter unchanged (every
operation but `AccountMarkedBytes`) or increases it by the accounted
size. -/
theorem step_marked_bytes_le (e : MarkEnv) (s : MarkingState) (op : MOp)
    (s2 : MarkingState) (hr : step e s op = some s2) :
    s.marked_bytes ≤ s2.marked_bytes := by
  cases op with
  | markAndPushAddress object desc =>
    simp only [step] at hr
    cases hcall : s.MarkAndPushAddress e.dbg e.mem e.pageOf object desc with
    | none => rw [hcall] at hr; exact absurd hr (by simp)
    | some p =>
      rw [hcall] at hr
      simp at hr
      exact hr ▸
        (MarkAndPushAddress_marked_bytes e.dbg s e.mem e.pageOf object desc
          p.1 p.2 (by rw [hcall])).ge
  | markAndPush h desc =>
    simp only [step] at hr
    cases hcall : s.MarkAndPush e.dbg e.pageOf h desc with
    | none => rw [hcall] at hr; exact absurd hr (by simp)
    | some p =>
      rw [hcall] at hr
      simp at hr
      exact hr ▸
        (MarkAndPush_marked_bytes e.dbg s e.pageOf h desc p.1 p.2
          (by rw [hcall])).ge
  | markAndPushHeaderOnly h =>
    simp only [step] at hr
    unfold MarkingState.MarkAndPushHeaderOnly at hr
    cases hcall : s.MarkAndPush e.dbg e.pageOf h
        ⟨h.payload, e.gcInfoTrace h.gcInfoIndex⟩ with
    | none => rw [hcall] at hr; exact absurd hr (by simp)
    | some p =>
      rw [hcall] at hr
      simp at hr
      exact hr ▸
        (MarkAndPush_marked_bytes e.dbg s e.pageOf h
          ⟨h.payload, e.gcInfoTrace h.gcInfoIndex⟩ p.1 p.2
          (by rw [hcall])).ge
  | markNoPush h =>
    simp only [step] at hr
    cases hcall : s.MarkNoPush e.dbg e.pageOf h with
    | none => rw [hcall] at hr; exact absurd hr (by simp)
    | some p =>
      rw [hcall] at hr
      simp at hr
      exact hr ▸ le_refl _
  | dynamicallyMarkAddress addr =>
    simp only [step] at hr
    cases hcall : s.DynamicallyMarkAddress e.dbg e.pageOf e.page
        e.gcInfoTrace addr with
    | none => rw [hcall] at hr; exact absurd hr (by simp)
    | some p =>
      rw [hcall] at hr
      simp at hr
      exact hr ▸
        (DynamicallyMarkAddress_marked_bytes e.dbg s e.pageOf e.page
          e.gcInfoTrace addr p.1 p.2 (by rw [hcall])).ge
  | registerWeakReferenceIfNeeded object desc cb param =>
    simp only [step] at hr
    simp at hr
    exact hr ▸
      (RegisterWeakReferenceIfNeeded_marked_bytes s e.mem object desc cb
        param).ge
  | registerWeakCallback cb param =>
    simp only [step] at hr
    unfold MarkingState.RegisterWeakCallback at hr
    simp at hr
    exact hr ▸ le_refl _
  | invokeWeakRootsCallbackIfNeeded object desc cb param =>
    simp only [step] at hr
    unfold MarkingState.InvokeWeakRootsCallbackIfNeeded at hr
    by_cases hcase : desc.base_object_payload = kNotFullyConstructedObject
    · rw [if_pos hcase] at hr
      simp at hr
      exact hr ▸ le_refl _
    · rw [if_neg hcase] at hr
      simp at hr
      exact hr ▸ le_refl _
  | accountMarkedBytes h =>
    simp only [step] at hr
    unfold MarkingState.AccountMarkedBytes at hr
    simp at hr
    exact hr ▸ Nat.le_add_right _ _

/-- C10: only `AccountMarkedBytes` modifies the marked-byte counter —
every other public operation of `MarkingState` (both `MarkAndPush`
overloads, the header-only convenience form, `MarkNoPush`,
`DynamicallyMarkAddress`, `RegisterWeakReferenceIfNeeded`,
`RegisterWeakCallback`, `InvokeWeakRootsCallbackIfNeeded`) leaves
`marked_bytes` unchanged, so marking an object does not by itself account
its size. -/
theorem step_marked_bytes_frame (e : MarkEnv) (s : MarkingState)
    (op : MOp) (s2 : MarkingState)
    (hop : ∀ h, op ≠ MOp.accountMarkedBytes h)
    (hr : step e s op = some s2) : s2.marked_bytes = s.marked_bytes := by
  cases op with
  | markAndPushAddress object desc =>
    simp only [step] at hr
    cases hcall : s.MarkAndPushAddress e.dbg e.mem e.pageOf object desc with
    | none => rw [hcall] at hr; exact absurd hr (by simp)
    | some p =>
      rw [hcall] at hr
      simp at hr
      exact hr ▸
        MarkAndPushAddress_marked_bytes e.dbg s e.mem e.pageOf object desc
          p.1 p.2 (by rw [hcall])
  | markAndPush h desc =>
    simp only [step] at hr
    cases hcall : s.MarkAndPush e.dbg e.pageOf h desc with
    | none => rw [hcall] at hr; exact absurd hr (by simp)
    | some p =>
      rw [hcall] at hr
      simp at hr
      exact hr ▸
        MarkAndPush_marked_bytes e.dbg s e.pageOf h desc p.1 p.2
          (by rw [hcall])
  | markAndPushHeaderOnly h =>
    simp only [step] at hr
    unfold MarkingState.MarkAndPushHeaderOnly at hr
    cases hcall : s.MarkAndPush e.dbg e.pageOf h
        ⟨h.payload, e.gcInfoTrace h.gcInfoIndex⟩ with
    | none => rw [hcall] at hr; exact absurd hr (by simp)
    | some p =>
      rw [hcall] at hr
      simp at hr
      exact hr ▸
        MarkAndPush_marked_bytes e.dbg s e.pageOf h
          ⟨h.payload, e.gcInfoTrace h.gcInfoIndex⟩ p.1 p.2 (by rw [hcall])
  | markNoPush h =>
    simp only [step] at hr
    cases hcall : s.MarkNoPush e.dbg e.pageOf h with
    | none => rw [hcall] at hr; exact absurd hr (by simp)
    | some p =>
      rw [hcall] at hr
      simp at hr
      exact hr ▸ rfl
  | dynamicallyMarkAddress addr =>
    simp only [step] at hr
    cases hcall : s.DynamicallyMarkAddress e.dbg e.pageOf e.page
        e.gcInfoTrace addr with
    | none => rw [hcall] at hr; exact absurd hr (by simp)
    | some p =>
      rw [hcall] at hr
      simp at hr
      exact hr ▸
        DynamicallyMarkAddress_marked_bytes e.dbg s e.pageOf e.page
          e.gcInfoTrace addr p.1 p.2 (by rw [hcall])
  | registerWeakReferenceIfNeeded object desc cb param =>
    simp only [step] at hr
    simp at hr
    exact hr ▸
      RegisterWeakReferenceIfNeeded_marked_bytes s e.mem object desc cb
        param
  | registerWeakCallback cb param =>
    simp only [step] at hr
    unfold MarkingState.RegisterWeakCallback at hr
    simp at hr
    exact hr ▸ rfl
  | invokeWeakRootsCallbackIfNeeded object desc cb param =>
    simp only [step] at hr
    unfold MarkingState.InvokeWeakRootsCallbackIfNeeded at hr
    by_cases hcase : desc.base_object_payload = kNotFullyConstructedObject
    · rw [if_pos hcase] at hr
      simp at hr
      exact hr ▸ rfl
    · rw [if_neg hcase] at hr
      simp at hr
      exact hr ▸ rfl
  | accountMarkedBytes h => exact absurd rfl (hop h)

/-- Witness for C10: a concrete `RegisterWeakCallback` step leaves the
byte counter unchanged. -/
theorem step_marked_bytes_frame_witness :
    (({ MarkingState.init 0 with marked_bytes := 7
        } : MarkingState).RegisterWeakCallback 11 13).marked_bytes = 7 :=
  step_marked_bytes_frame
    ⟨false, fun _ => ⟨0, false, false, false, 0, 0, false⟩,
      fun _ => ⟨0, 0⟩, [], fun _ => 0⟩
    { MarkingState.init 0 with marked_bytes := 7 }
    (MOp.registerWeakCallback 11 13)
    (({ MarkingState.init 0 with marked_bytes := 7
        } : MarkingState).RegisterWeakCallback 11 13)
    (by intro h hne; cases hne) rfl

/-- C9: the marked-byte counter starts at zero at construction and is
monotonically non-decreasing across every sequence of public operations
performed on one `MarkingState` instance, so `marked_bytes()` never
returns a value smaller than one it previously returned. -/
theorem marked_bytes_monotone :
    (∀ heap, (MarkingState.init heap).marked_bytes = 0) ∧
    (∀ e ops s s2, run e ops s = some s2 →
      s.marked_bytes ≤ s2.marked_bytes) := by
  refine ⟨fun _ => rfl, fun e ops => ?_⟩
  induction ops with
  | nil =>
    intro s s2 hr
    simp only [run] at hr
    simp at hr
    exact hr ▸ le_refl _
  | cons op ops ih =>
    intro s s2 hr
    simp only [run] at hr
    cases hstep : step e s op with
    | none => rw [hstep] at hr; exact absurd hr (by simp)
    | some s1 =>
      rw [hstep] at hr
      exact le_trans (step_marked_bytes_le e s op s1 hstep) (ih s1 s2 hr)

/-- Witness for C9: a concrete two-operation run (an account step then a
weak-callback registration) never decreases the counter. -/
theorem marked_bytes_monotone_witness :
    (MarkingState.init 0).marked_bytes ≤
      ({ MarkingState.init 0 with
         marked_bytes := 16
         weak_callback_worklist := [(11, 13)] } : MarkingState).marked_bytes :=
  marked_bytes_monotone.2
    ⟨false, fun _ => ⟨0, false, false, false, 0, 0, false⟩,
      fun _ => ⟨0, 0⟩, [], fun _ => 0⟩
    [MOp.accountMarkedBytes ⟨4, false, false, false, 16, 2, false⟩,
     MOp.registerWeakCallback 11 13]
    (MarkingState.init 0)
    { MarkingState.init 0 with
      marked_bytes := 16
      weak_callback_worklist := [(11, 13)] }
    rfl

end Cppgc
